import Mathlib

/-!
Shallow embedding of the goalbert library (a Go client library for the
Albert launcher external-plugin protocol, src/albert.go).

The source file contains three revisions of the implementation
concatenated together: the current `DefaultPlugin`/`Run` API, an
intermediate `HookSet`/`Start` API in which every operation falls back to
its own default hook, and an oldest `HookSet` revision in which every
fallback branch invokes the metadata default and `NewQueryAction` does
not strip argv[0].  All three are embedded below; entities of the oldest
revision carry a `Legacy` suffix.

Process side effects are made explicit: writes to the output sink and
warning-level log lines become lists of strings, and `os.Exit` becomes a
returned exit code.  Go slices are `Option (List _)` so that nil slices
(marshalled by `encoding/json` as `null`) stay distinguishable from empty
ones (marshalled as `[]`).
-/

namespace Goalbert

/-- Go `[]T`: `none` models a nil slice, `some xs` a non-nil slice. -/
abbrev GoSlice (α : Type) := Option (List α)

/-- JSON values, used to state wire-format properties.  The field list of
`obj` is ordered exactly as `encoding/json` emits it (Go struct field
order). -/
inductive Json where
  | null : Json
  | str : String → Json
  | arr : List Json → Json
  | obj : List (String × Json) → Json

/-- Albert Communication Protocol version supported by the library
(src: `defaultProtocolVersion`, `protocolVersion`). -/
def defaultProtocolVersion : String := "org.albert.extension.external/v2.0"

/-- Go `type AlbertOp string`. -/
abbrev AlbertOp := String

def OpMetadata : AlbertOp := "METADATA"

def OpName : AlbertOp := "NAME"

def OpInitialize : AlbertOp := "INITIALIZE"

def OpFinalize : AlbertOp := "FINALIZE"

def OpSetupSession : AlbertOp := "SETUPSESSION"

def OpTeardownSession : AlbertOp := "TEARDOWNSESSION"

def OpQuery : AlbertOp := "QUERY"

/-- The recognized operation selectors (the seven `Op*` constants). -/
def albertOps : List String :=
  ["METADATA", "NAME", "INITIALIZE", "FINALIZE", "SETUPSESSION",
   "TEARDOWNSESSION", "QUERY"]

/-- Errors flowing out of an operation implementation: `albert` embeds
the source's `AlbertError` (message and intended exit code), `generic`
any other Go error value. -/
inductive GoError where
  | albert : String → Int → GoError
  | generic : String → GoError
deriving DecidableEq

/-- src `Metadata` struct: plugin description reported to Albert. -/
structure Metadata where
  IID : String
  Name : String
  Version : String
  Author : String
  Dependencies : GoSlice String
  Trigger : String
deriving DecidableEq

/-- src `QueryAction` struct. -/
structure QueryAction where
  Name : String
  Command : String
  Arguments : GoSlice String
deriving DecidableEq

/-- src `QueryItem` struct. -/
structure QueryItem where
  ID : String
  Name : String
  Description : String
  Completion : String
  Icon : String
  Actions : GoSlice QueryAction
deriving DecidableEq

/-- src `QueryResult` struct. -/
structure QueryResult where
  Items : GoSlice QueryItem
deriving DecidableEq

/-- Escaping applied by Go `encoding/json` to string contents (including
its default HTML escaping of angle brackets and ampersands). -/
def goEscapeChar (c : Char) : String :=
  if c = '"' then "\\\""
  else if c = '\\' then "\\\\"
  else if c = '\n' then "\\n"
  else if c = '\r' then "\\r"
  else if c = '\t' then "\\t"
  else if c = '<' then "\\u003c"
  else if c = '>' then "\\u003e"
  else if c = '&' then "\\u0026"
  else if c.toNat < 32 then
    "\\u00" ++ String.singleton (Nat.digitChar (c.toNat / 16))
      ++ String.singleton (Nat.digitChar (c.toNat % 16))
  else String.singleton c

def goEscape (s : String) : String := String.join (s.data.map goEscapeChar)

def goQuote (s : String) : String := "\"" ++ goEscape s ++ "\""

/-- `json.Marshal` text of a Go slice, given a marshaller for elements:
nil marshals as `null`, otherwise a comma-separated array. -/
def marshalGoSlice {α : Type} (f : α → String) : GoSlice α → String
  | none => "null"
  | some xs => "[" ++ String.intercalate "," (xs.map f) ++ "]"

/-- `json.Marshal` text of a `Metadata` value (fields in struct order,
compact, no trailing formatting). -/
def marshalMetadata (m : Metadata) : String :=
  "\x7b" ++ goQuote "iid" ++ ":" ++ goQuote m.IID
    ++ "," ++ goQuote "name" ++ ":" ++ goQuote m.Name
    ++ "," ++ goQuote "version" ++ ":" ++ goQuote m.Version
    ++ "," ++ goQuote "author" ++ ":" ++ goQuote m.Author
    ++ "," ++ goQuote "dependencies" ++ ":" ++ marshalGoSlice goQuote m.Dependencies
    ++ "," ++ goQuote "trigger" ++ ":" ++ goQuote m.Trigger
    ++ "\x7d"

/-- `json.Marshal` text of a `QueryAction`. -/
def marshalQueryAction (a : QueryAction) : String :=
  "\x7b" ++ goQuote "name" ++ ":" ++ goQuote a.Name
    ++ "," ++ goQuote "command" ++ ":" ++ goQuote a.Command
    ++ "," ++ goQuote "arguments" ++ ":" ++ marshalGoSlice goQuote a.Arguments
    ++ "\x7d"

/-- `json.Marshal` text of a `QueryItem`. -/
def marshalQueryItem (it : QueryItem) : String :=
  "\x7b" ++ goQuote "id" ++ ":" ++ goQuote it.ID
    ++ "," ++ goQuote "name" ++ ":" ++ goQuote it.Name
    ++ "," ++ goQuote "description" ++ ":" ++ goQuote it.Description
    ++ "," ++ goQuote "completion" ++ ":" ++ goQuote it.Completion
    ++ "," ++ goQuote "icon" ++ ":" ++ goQuote it.Icon
    ++ "," ++ goQuote "actions" ++ ":" ++ marshalGoSlice marshalQueryAction it.Actions
    ++ "\x7d"

/-- `json.Marshal` text of a `QueryResult`. -/
def marshalQueryResult (r : QueryResult) : String :=
  "\x7b" ++ goQuote "items" ++ ":" ++ marshalGoSlice marshalQueryItem r.Items ++ "\x7d"

/-- Wire value of a Go slice: nil marshals to `null`, otherwise to an
array of the marshalled elements, order preserved. -/
def encodeGoSlice {α : Type} (f : α → Json) : GoSlice α → Json
  | none => Json.null
  | some xs => Json.arr (xs.map f)

/-- Wire value of `Metadata` (tags `iid`, `name`, `version`, `author`,
`dependencies`, `trigger`, in struct order). -/
def encodeMetadata (m : Metadata) : Json :=
  Json.obj [("iid", Json.str m.IID), ("name", Json.str m.Name),
    ("version", Json.str m.Version), ("author", Json.str m.Author),
    ("dependencies", encodeGoSlice Json.str m.Dependencies),
    ("trigger", Json.str m.Trigger)]

/-- Wire value of `QueryAction` (tags `name`, `command`, `arguments`). -/
def encodeQueryAction (a : QueryAction) : Json :=
  Json.obj [("name", Json.str a.Name), ("command", Json.str a.Command),
    ("arguments", encodeGoSlice Json.str a.Arguments)]

/-- Wire value of `QueryItem` (tags `id`, `name`, `description`,
`completion`, `icon`, `actions`). -/
def encodeQueryItem (it : QueryItem) : Json :=
  Json.obj [("id", Json.str it.ID), ("name", Json.str it.Name),
    ("description", Json.str it.Description),
    ("completion", Json.str it.Completion), ("icon", Json.str it.Icon),
    ("actions", encodeGoSlice encodeQueryAction it.Actions)]

/-- Wire value of `QueryResult` (single tag `items`). -/
def encodeQueryResult (r : QueryResult) : Json :=
  Json.obj [("items", encodeGoSlice encodeQueryItem r.Items)]

/-- Field lookup of a conforming JSON reader (first binding wins, as the
encoder never emits duplicate keys). -/
def lookupField (fields : List (String × Json)) (key : String) : Option Json :=
  (fields.find? (fun kv => kv.1 == key)).map (fun kv => kv.2)

/-- Reading a JSON value into a Go string: `null` leaves the zero value,
as `json.Unmarshal` does. -/
def asStr : Json → Option String
  | Json.str s => some s
  | Json.null => some ""
  | _ => none

/-- Reading a string-typed struct field: an absent key leaves the zero
value `""`. -/
def decStrField (fields : List (String × Json)) (key : String) : Option String :=
  match lookupField fields key with
  | none => some ""
  | some j => asStr j

/-- Reading a JSON array elementwise. -/
def decodeList {α : Type} (dec : Json → Option α) : List Json → Option (List α)
  | [] => some []
  | j :: js =>
    match dec j, decodeList dec js with
    | some a, some rest => some (a :: rest)
    | _, _ => none

/-- Reading a JSON value into a Go slice: `null` gives the nil slice. -/
def decSliceJson {α : Type} (dec : Json → Option α) : Json → Option (GoSlice α)
  | Json.null => some none
  | Json.arr xs => (decodeList dec xs).map some
  | _ => none

/-- Reading a slice-typed struct field: an absent key leaves the zero
value (the nil slice). -/
def decSliceField {α : Type} (dec : Json → Option α)
    (fields : List (String × Json)) (key : String) : Option (GoSlice α) :=
  match lookupField fields key with
  | none => some none
  | some j => decSliceJson dec j

/-- Conforming reader for the `QueryAction` wire object. -/
def decodeQueryAction : Json → Option QueryAction
  | Json.obj fields =>
    (decStrField fields "name").bind fun n =>
    (decStrField fields "command").bind fun c =>
    (decSliceField asStr fields "arguments").map fun args =>
    QueryAction.mk n c args
  | _ => none

/-- Conforming reader for the `QueryItem` wire object. -/
def decodeQueryItem : Json → Option QueryItem
  | Json.obj fields =>
    (decStrField fields "id").bind fun i =>
    (decStrField fields "name").bind fun n =>
    (decStrField fields "description").bind fun d =>
    (decStrField fields "completion").bind fun co =>
    (decStrField fields "icon").bind fun ic =>
    (decSliceField decodeQueryAction fields "actions").map fun acts =>
    QueryItem.mk i n d co ic acts
  | _ => none

/-- Conforming reader for the `QueryResult` wire object. -/
def decodeQueryResult : Json → Option QueryResult
  | Json.obj fields => (decSliceField decodeQueryItem fields "items").map QueryResult.mk
  | _ => none

/-- The fields of `exec.Cmd` that the library reads: the executable path
and the full argument vector (whose first element is conventionally the
path itself). -/
structure Cmd where
  Path : String
  Args : List String
deriving DecidableEq

/-- Go slice expression `s[low:]`: `none` models the run-time panic
raised when `low` exceeds `len(s)`. -/
def goSliceSuffix {α : Type} (s : List α) (low : Nat) : Option (List α) :=
  if low ≤ s.length then some (s.drop low) else none

/-- src `NewQueryAction` (current revision, also present in the
intermediate revision): `QueryAction{Name: name, Command: cmd.Path,
Arguments: cmd.Args[1:]}`.  The result is `none` exactly when the Go
slice expression `cmd.Args[1:]` panics, i.e. on an argv shorter than one
element. -/
def NewQueryAction (name : String) (cmd : Cmd) : Option QueryAction :=
  (goSliceSuffix cmd.Args 1).map fun rest =>
    QueryAction.mk name cmd.Path (some rest)

/-- Oldest-revision `NewQueryAction` (src lines 562-564): keeps the full
argument vector, `Arguments: cmd.Args`, including argv[0]. -/
def NewQueryActionLegacy (name : String) (cmd : Cmd) : QueryAction :=
  QueryAction.mk name cmd.Path (some cmd.Args)

/-- The `io.Writer` installed as the plugin's output sink. -/
inductive Writer where
  | stdout : Writer
  | custom : Nat → Writer
deriving DecidableEq

/-- src `DefaultPlugin` struct.  `QueryCallback` is `nil`-able; a
callback returns the result and an optional error. -/
structure DefaultPlugin where
  Meta : Metadata
  Output : Writer
  QueryCallback : Option (String → QueryResult × Option GoError)

/-- src `NewPlugin`: configures a `DefaultPlugin` with the fixed protocol
version as `IID`, an empty non-nil dependency slice, `os.Stdout` as the
output sink and the supplied query callback. -/
def NewPlugin (name version author trigger : String)
    (qc : String → QueryResult × Option GoError) : DefaultPlugin :=
  { Meta := { IID := defaultProtocolVersion, Name := name, Version := version,
              Author := author, Trigger := trigger, Dependencies := some [] },
    Output := Writer.stdout,
    QueryCallback := some qc }

/-- Go method `DefaultPlugin.Metadata()` (returns `p.Meta`); renamed here
because the name `Metadata` is taken by the struct type. -/
def DefaultPlugin.getMetadata (p : DefaultPlugin) : Metadata := p.Meta

/-- src `DefaultPlugin.Query`: runs the author callback when present,
otherwise returns the `AlbertError` with code 255 that signals missing
query behavior. -/
def DefaultPlugin.Query (p : DefaultPlugin) (query : String) :
    QueryResult × Option GoError :=
  match p.QueryCallback with
  | some qc => qc query
  | none => (QueryResult.mk none,
      some (GoError.albert ("no behavior defined for query \x27" ++ query ++ "\x27") 255))

/-- Result of `DefaultPlugin.RunOp`: the receiver value after the call
(Go value receiver, never reassigned), the writes made to `p.Output`, and
the returned error. -/
structure OpResult where
  plugin : DefaultPlugin
  out : List String
  err : Option GoError

/-- src `DefaultPlugin.RunOp`: the seven-way switch on the operation.
`json.NewEncoder(p.Output).Encode(v)` writes the compact marshalling of
`v` followed by a newline; the NAME branch writes the raw name bytes;
`queryEnv` is the value of `ALBERT_QUERY` read in the QUERY branch; an
unmatched selector returns the "unknown albert op" `AlbertError` with
code 255.  Encoder errors are unreachable for this data model. -/
def DefaultPlugin.RunOp (p : DefaultPlugin) (op : AlbertOp) (queryEnv : String) :
    OpResult :=
  if op = OpMetadata then
    OpResult.mk p [marshalMetadata p.getMetadata ++ "\n"] none
  else if op = OpName then OpResult.mk p [p.Meta.Name] none
  else if op = OpInitialize then OpResult.mk p [] none
  else if op = OpFinalize then OpResult.mk p [] none
  else if op = OpSetupSession then OpResult.mk p [] none
  else if op = OpTeardownSession then OpResult.mk p [] none
  else if op = OpQuery then
    match p.Query queryEnv with
    | (_, some e) => OpResult.mk p [] (some e)
    | (res, none) => OpResult.mk p [marshalQueryResult res ++ "\n"] none
  else
    OpResult.mk p []
      (some (GoError.albert ("unknown albert op \x27" ++ op ++ "\x27") 255))

/-- Observable outcome of `Run`: writes to the output sink, warning-level
log lines, and the process exit code. -/
structure RunResult where
  out : List String
  warns : List String
  exit : Int
deriving DecidableEq

/-- src `Run`: dispatches the `ALBERT_OP` value (passed here as `op`) and
exits: an `AlbertError` exits with its own code after a warning log, any
other error exits 255 after a warning log, no error exits 0. -/
def Run (p : DefaultPlugin) (op : AlbertOp) (queryEnv : String) : RunResult :=
  let r := p.RunOp op queryEnv
  match r.err with
  | some (GoError.albert msg code) =>
    RunResult.mk r.out ["error (code=" ++ toString code ++ "): " ++ msg] code
  | some (GoError.generic msg) => RunResult.mk r.out ["error: " ++ msg] 255
  | none => RunResult.mk r.out [] 0

/-- A lifecycle hook `func() int`: it may read the process-wide metadata
and print; the pair is (writes to stdout, exit code). -/
abbrev Hook := Metadata → List String × Int

/-- A query hook: (result, warning log lines, exit code). -/
abbrev QueryHook := String → QueryResult × List String × Int

/-- src `HookSet` struct: one optional callback per operation (the oldest
revision spells the session fields `Setupsession`/`Teardownsession` but
is otherwise identical). -/
structure HookSet where
  Metadata : Option Hook
  Name : Option Hook
  Initialize : Option Hook
  Finalize : Option Hook
  SetupSession : Option Hook
  TeardownSession : Option Hook
  Query : Option QueryHook

/-- src `defaultMetadata`: `json.Marshal` the process-wide metadata and
`fmt.Print` it (no trailing newline), success. -/
def defaultMetadataHook : Hook := fun meta => ([marshalMetadata meta], 0)

/-- Default NAME hook: `fmt.Print(pluginMetadata.Name)`, success. -/
def defaultNameHook : Hook := fun meta => ([meta.Name], 0)

/-- Default lifecycle hook: `func() int { return 0 }` (the source has
four identical such closures). -/
def defaultLifecycleHook : Hook := fun _ => ([], 0)

/-- Default query hook: logs the warning "Must implement Query behavior"
and reports code 255 with an empty result. -/
def defaultQueryHook : QueryHook := fun _ =>
  (QueryResult.mk none, ["Must implement Query behavior"], 255)

/-- src `defaultHookSet`: every entry populated with its default. -/
def defaultHookSet : HookSet :=
  { Metadata := some defaultMetadataHook, Name := some defaultNameHook,
    Initialize := some defaultLifecycleHook, Finalize := some defaultLifecycleHook,
    SetupSession := some defaultLifecycleHook,
    TeardownSession := some defaultLifecycleHook,
    Query := some defaultQueryHook }

/-- Outcome of `HookSet.Start`: writes to stdout, warning log lines, and
the exit code — `none` when the switch matched no case and `Start`
returned without exiting the process. -/
structure StartResult where
  out : List String
  warns : List String
  code : Option Int
deriving DecidableEq

/-- `os.Exit(fn())` on a lifecycle hook result. -/
def exitWith (oc : List String × Int) : StartResult :=
  StartResult.mk oc.1 [] (some oc.2)

/-- src `handleQueryResult`: marshals the result, prints it (even on a
failing code), and exits with the hook's code; the marshal-error branch
is unreachable for this data model. -/
def handleQueryResult (res : QueryResult) (warns : List String) (code : Int) :
    StartResult :=
  StartResult.mk [marshalQueryResult res] warns (some code)

/-- Intermediate-revision `HookSet.Start` (src lines 281-342): each
operation falls back to its own entry of `defaultHookSet`; `meta` is the
process-wide `pluginMetadata` value when `Start` runs, `op` the
`ALBERT_OP` value and `queryEnv` the `ALBERT_QUERY` value.  The switch
has no default case: an unmatched selector neither writes nor exits. -/
def HookSet.Start (h : HookSet) (meta : Goalbert.Metadata) (op : String)
    (queryEnv : String) : StartResult :=
  if op = "METADATA" then
    match h.Metadata with
    | some fn => exitWith (fn meta)
    | none => exitWith (defaultMetadataHook meta)
  else if op = "NAME" then
    match h.Name with
    | some fn => exitWith (fn meta)
    | none => exitWith (defaultNameHook meta)
  else if op = "INITIALIZE" then
    match h.Initialize with
    | some fn => exitWith (fn meta)
    | none => exitWith (defaultLifecycleHook meta)
  else if op = "FINALIZE" then
    match h.Finalize with
    | some fn => exitWith (fn meta)
    | none => exitWith (defaultLifecycleHook meta)
  else if op = "SETUPSESSION" then
    match h.SetupSession with
    | some fn => exitWith (fn meta)
    | none => exitWith (defaultLifecycleHook meta)
  else if op = "TEARDOWNSESSION" then
    match h.TeardownSession with
    | some fn => exitWith (fn meta)
    | none => exitWith (defaultLifecycleHook meta)
  else if op = "QUERY" then
    match (match h.Query with
           | some fn => fn queryEnv
           | none => defaultQueryHook queryEnv) with
    | (res, ws, code) => handleQueryResult res ws code
  else StartResult.mk [] [] none

/-- Oldest-revision `HookSet.Start` (src lines 465-524): every fallback
branch invokes `defaultHookSet.Metadata` instead of the operation's own
default.  The registered-QUERY branch of that revision
(`os.Exit(fn())`) does not even type-check in Go; it is modelled as
exiting with the hook's code without writing the result.  As in the
intermediate revision, the switch has no default case. -/
def HookSet.StartLegacy (h : HookSet) (meta : Goalbert.Metadata) (op : String)
    (queryEnv : String) : StartResult :=
  if op = "METADATA" then
    match h.Metadata with
    | some fn => exitWith (fn meta)
    | none => exitWith (defaultMetadataHook meta)
  else if op = "NAME" then
    match h.Name with
    | some fn => exitWith (fn meta)
    | none => exitWith (defaultMetadataHook meta)
  else if op = "INITIALIZE" then
    match h.Initialize with
    | some fn => exitWith (fn meta)
    | none => exitWith (defaultMetadataHook meta)
  else if op = "FINALIZE" then
    match h.Finalize with
    | some fn => exitWith (fn meta)
    | none => exitWith (defaultMetadataHook meta)
  else if op = "SETUPSESSION" then
    match h.SetupSession with
    | some fn => exitWith (fn meta)
    | none => exitWith (defaultMetadataHook meta)
  else if op = "TEARDOWNSESSION" then
    match h.TeardownSession with
    | some fn => exitWith (fn meta)
    | none => exitWith (defaultMetadataHook meta)
  else if op = "QUERY" then
    match h.Query with
    | some fn =>
      match fn queryEnv with
      | (_, ws, code) => StartResult.mk [] ws (some code)
    | none => exitWith (defaultMetadataHook meta)
  else StartResult.mk [] [] none

/-- The metadata of the spec's METADATA scenario, as `NewPlugin`
configures it. -/
def demoMeta : Metadata :=
  { IID := defaultProtocolVersion, Name := "demo", Version := "0.1",
    Author := "a", Dependencies := some [], Trigger := "t" }

/-- The exact stdout payload the spec's METADATA scenario expects. -/
def demoMetaJson : String :=
  "\x7b\"iid\":\"org.albert.extension.external/v2.0\",\"name\":\"demo\",\"version\":\"0.1\",\"author\":\"a\",\"dependencies\":[],\"trigger\":\"t\"\x7d"

/-- A hook set with no author-supplied callback. -/
def emptyHookSet : HookSet :=
  { Metadata := none, Name := none, Initialize := none, Finalize := none,
    SetupSession := none, TeardownSession := none, Query := none }

/-- The plugin of the spec's METADATA scenario (its query callback is
irrelevant there). -/
def pDemo : DefaultPlugin :=
  NewPlugin "demo" "0.1" "a" "t" (fun _ => (QueryResult.mk none, none))

/-- Reading back a pointwise-encoded array recovers the original list. -/
theorem decodeList_map {α : Type} (dec : Json → Option α) (enc : α → Json)
    (h : ∀ x, dec (enc x) = some x) (xs : List α) :
    decodeList dec (xs.map enc) = some xs := by
  induction xs with
  | nil => rfl
  | cons a l ih => simp [decodeList, h a, ih]

/-- Round trip for the `QueryAction` wire object. -/
theorem decodeQueryAction_encode (a : QueryAction) :
    decodeQueryAction (encodeQueryAction a) = some a := by
  obtain ⟨n, c, args⟩ := a
  cases args with
  | none => rfl
  | some l =>
    have h := decodeList_map asStr Json.str (fun s => rfl) l
    show ((decodeList asStr (l.map Json.str)).map some).map
        (fun args => QueryAction.mk n c args) = some (QueryAction.mk n c (some l))
    rw [h]
    rfl

/-- Round trip for the `QueryItem` wire object. -/
theorem decodeQueryItem_encode (it : QueryItem) :
    decodeQueryItem (encodeQueryItem it) = some it := by
  obtain ⟨i, n, d, co, ic, acts⟩ := it
  cases acts with
  | none => rfl
  | some l =>
    have h := decodeList_map decodeQueryAction encodeQueryAction
      decodeQueryAction_encode l
    show ((decodeList decodeQueryAction (l.map encodeQueryAction)).map some).map
        (fun acts => QueryItem.mk i n d co ic acts)
        = some (QueryItem.mk i n d co ic (some l))
    rw [h]
    rfl

/-- C1: the oldest-revision dispatcher, run with no registered hooks,
resolves the NAME operation (and likewise the lifecycle operations,
INITIALIZE shown) to the METADATA default instead of the operation's own
default: it writes the metadata JSON object rather than the plugin name
(respectively, rather than nothing), while the intermediate revision
resolves each operation to its own default as the claim and the spec
state.  This evaluates the code at the failing input of the code_bug. -/
theorem c1_legacy_fallback_uses_metadata_default :
    HookSet.StartLegacy emptyHookSet demoMeta "NAME" "" =
      StartResult.mk [demoMetaJson] [] (some 0) ∧
    HookSet.StartLegacy emptyHookSet demoMeta "INITIALIZE" "" =
      StartResult.mk [demoMetaJson] [] (some 0) ∧
    HookSet.Start emptyHookSet demoMeta "NAME" "" =
      StartResult.mk ["demo"] [] (some 0) ∧
    HookSet.Start emptyHookSet demoMeta "INITIALIZE" "" =
      StartResult.mk [] [] (some 0) ∧
    demoMetaJson ≠ "demo" := by
  refine ⟨by decide, by decide, by decide, by decide, by decide⟩

/-- C2 counterexample: the `HookSet.Start` dispatcher, whose switch has
no default case, neither exits nor writes for an unrecognized selector
(shown for "BOGUS" and for the empty string) — it does not terminate the
process with code 255 as the claim states. -/
theorem c2_counterexample_start_ignores_unknown_op :
    HookSet.Start emptyHookSet demoMeta "BOGUS" "" = StartResult.mk [] [] none ∧
    (HookSet.Start emptyHookSet demoMeta "BOGUS" "").code ≠ some 255 ∧
    HookSet.Start emptyHookSet demoMeta "" "" = StartResult.mk [] [] none ∧
    (HookSet.Start emptyHookSet demoMeta "" "").code ≠ some 255 := by
  refine ⟨by decide, by decide, by decide, by decide⟩

/-- C2 as amended: for every selector outside the recognized seven,
the current dispatcher (`RunOp`/`Run`) returns the distinct
"unknown albert op" `AlbertError` carrying code 255, writes nothing to
stdout, logs a warning naming the unknown operation (distinguishing the
condition from a business-logic failure), and exits 255; the
`HookSet.Start` dispatcher of the intermediate revision performs no
writes either, but falls through its switch without exiting. -/
theorem c2_unknown_op_exits_255 (op : String) (hop : op ∉ albertOps)
    (p : DefaultPlugin) (h : HookSet) (meta : Metadata) (q : String) :
    p.RunOp op q = OpResult.mk p []
      (some (GoError.albert ("unknown albert op \x27" ++ op ++ "\x27") 255)) ∧
    (Run p op q).out = [] ∧
    (Run p op q).exit = 255 ∧
    (Run p op q).warns =
      ["error (code=255): " ++ ("unknown albert op \x27" ++ op ++ "\x27")] ∧
    HookSet.Start h meta op q = StartResult.mk [] [] none := by
  simp only [albertOps, List.mem_cons, List.not_mem_nil, or_false, not_or] at hop
  obtain ⟨h1, h2, h3, h4, h5, h6, h7⟩ := hop
  have hR : p.RunOp op q = OpResult.mk p []
      (some (GoError.albert ("unknown albert op \x27" ++ op ++ "\x27") 255)) := by
    unfold DefaultPlugin.RunOp OpMetadata OpName OpInitialize OpFinalize
      OpSetupSession OpTeardownSession OpQuery
    rw [if_neg h1, if_neg h2, if_neg h3, if_neg h4, if_neg h5, if_neg h6, if_neg h7]
  have hS : HookSet.Start h meta op q = StartResult.mk [] [] none := by
    unfold HookSet.Start
    rw [if_neg h1, if_neg h2, if_neg h3, if_neg h4, if_neg h5, if_neg h6, if_neg h7]
  have hpre : ("error (code=" ++ toString (255 : Int) ++ "): ") =
      "error (code=255): " := by decide
  refine ⟨hR, ?_, ?_, ?_, hS⟩ <;> simp [Run, hR, hpre]

/-- Witness for C2's theorem at the concrete selector "BOGUS". -/
theorem c2_unknown_op_exits_255_witness :
    ("BOGUS" ∉ albertOps) ∧
    (Run pDemo "BOGUS" "").out = [] ∧ (Run pDemo "BOGUS" "").exit = 255 :=
  ⟨by decide,
   (c2_unknown_op_exits_255 "BOGUS" (by decide) pDemo emptyHookSet demoMeta "").2.1,
   (c2_unknown_op_exits_255 "BOGUS" (by decide) pDemo emptyHookSet demoMeta "").2.2.1⟩

/-- C3: for any error returned by the query hook during dispatch, `Run`
exits with the error's own code when it is an `AlbertError`, with the
generic code 255 when the error carries no code, and with 0 when the
hook returns no error. -/
theorem c3_hook_error_exit_codes (m : Metadata) (w : Writer) (r : QueryResult)
    (msg : String) (c : Int) (q : String) :
    (Run (DefaultPlugin.mk m w
        (some fun _ => (r, some (GoError.albert msg c)))) OpQuery q).exit = c ∧
    (Run (DefaultPlugin.mk m w
        (some fun _ => (r, some (GoError.generic msg)))) OpQuery q).exit = 255 ∧
    (Run (DefaultPlugin.mk m w (some fun _ => (r, none))) OpQuery q).exit = 0 :=
  ⟨rfl, rfl, rfl⟩

/-- C4 counterexample: in the intermediate revision, dispatching QUERY
with no author hook does write a result payload — `handleQueryResult`
marshals the empty result and prints it before exiting 255 — refuting
the claim's "writes no result payload to the output sink". -/
theorem c4_counterexample_hookset_writes_empty_result :
    (HookSet.Start emptyHookSet demoMeta "QUERY" "x").out =
      ["\x7b\"items\":null\x7d"] ∧
    (HookSet.Start emptyHookSet demoMeta "QUERY" "x").out ≠ [] ∧
    (HookSet.Start emptyHookSet demoMeta "QUERY" "x").code = some 255 := by
  refine ⟨by decide, by decide, by decide⟩

/-- C4 as amended: with no author-supplied Query behavior, dispatching
QUERY reports failure 255 and surfaces a warning-level diagnostic in
both implementations; the `DefaultPlugin`/`Run` path writes no payload,
while the `HookSet` path writes the encoding of the empty result before
exiting. -/
theorem c4_unimplemented_query (m : Metadata) (w : Writer) (q : String) :
    (Run (DefaultPlugin.mk m w none) OpQuery q).out = [] ∧
    (Run (DefaultPlugin.mk m w none) OpQuery q).exit = 255 ∧
    (Run (DefaultPlugin.mk m w none) OpQuery q).warns =
      ["error (code=255): " ++
        ("no behavior defined for query \x27" ++ q ++ "\x27")] ∧
    HookSet.Start emptyHookSet m "QUERY" q =
      StartResult.mk ["\x7b\"items\":null\x7d"]
        ["Must implement Query behavior"] (some 255) :=
  ⟨rfl, rfl, rfl, rfl⟩

/-- C5 counterexample: dispatching METADATA through the current
`RunOp`/`Run` path writes the expected JSON object FOLLOWED BY a newline
(`json.NewEncoder(...).Encode` terminates every value with one), so the
stdout payload is not exactly the bare object the claim states. -/
theorem c5_counterexample_trailing_newline :
    (Run pDemo OpMetadata "").out = [demoMetaJson ++ "\n"] ∧
    (Run pDemo OpMetadata "").out ≠ [demoMetaJson] := by
  refine ⟨by decide, by decide⟩

/-- C5 as amended: for the scenario metadata, the intermediate
revision's METADATA default writes exactly the claimed compact JSON
object — that field order, no pretty-printing, no trailing newline — and
exits 0, while the current `RunOp` implementation writes the same object
followed by a single newline (stream-encoder framing) and also exits 0. -/
theorem c5_metadata_scenario :
    HookSet.Start emptyHookSet demoMeta "METADATA" "" =
      StartResult.mk [demoMetaJson] [] (some 0) ∧
    (Run pDemo OpMetadata "").out = [demoMetaJson ++ "\n"] ∧
    (Run pDemo OpMetadata "").exit = 0 := by
  refine ⟨by decide, by decide, by decide⟩

/-- C6 counterexample: the oldest-revision constructor (src lines
562-564, cited by the claim) keeps the full argument vector including
argv[0], so its Arguments is not the vector with the first element
removed. -/
theorem c6_counterexample_legacy_keeps_argv0 :
    NewQueryActionLegacy "n" (Cmd.mk "/bin/x" ["/bin/x", "arg"]) =
      QueryAction.mk "n" "/bin/x" (some ["/bin/x", "arg"]) ∧
    (NewQueryActionLegacy "n" (Cmd.mk "/bin/x" ["/bin/x", "arg"])).Arguments ≠
      some ["arg"] := by
  refine ⟨by decide, by decide⟩

/-- C6 as amended: the current `NewQueryAction` (src lines 110-112 and
380-382), on any command descriptor with a non-empty argument vector,
returns the action with the given display name, the executable path as
Command, and the argument vector minus its first element, in order, as
Arguments (a pure transformation); the superseded revision at lines
562-564 kept the full vector. -/
theorem c6_action_constructor_strips_argv0 (name : String) (cmd : Cmd)
    (h : cmd.Args ≠ []) :
    NewQueryAction name cmd =
      some (QueryAction.mk name cmd.Path (some (cmd.Args.drop 1))) := by
  unfold NewQueryAction goSliceSuffix
  rw [if_pos (show 1 ≤ cmd.Args.length from List.length_pos.mpr h)]
  rfl

/-- Witness for C6's theorem at a concrete two-element argv. -/
theorem c6_action_constructor_strips_argv0_witness :
    (["/bin/chrome", "www.example.com"] ≠ ([] : List String)) ∧
    NewQueryAction "Browse" (Cmd.mk "/bin/chrome" ["/bin/chrome", "www.example.com"]) =
      some (QueryAction.mk "Browse" "/bin/chrome" (some ["www.example.com"])) :=
  ⟨by decide,
   c6_action_constructor_strips_argv0 "Browse"
     (Cmd.mk "/bin/chrome" ["/bin/chrome", "www.example.com"]) (by decide)⟩

/-- C7 counterexample: on a command descriptor with an empty argument
vector the constructor does fail — the Go slice expression
`cmd.Args[1:]` panics (modelled by `none`), so no `QueryAction` with
empty Arguments is returned. -/
theorem c7_counterexample_empty_argv_panics :
    NewQueryAction "go" (Cmd.mk "/bin/true" []) = none := by decide

/-- C7 as amended: for an argument vector holding exactly one element
(the executable path alone) the constructor succeeds and Arguments is
empty — in particular it never contains the executable path — but for an
empty argument vector the Go slice expression `Args[1:]` panics instead
of returning an action. -/
theorem c7_short_argv (name path : String) :
    NewQueryAction name (Cmd.mk path [path]) =
      some (QueryAction.mk name path (some [])) ∧
    NewQueryAction name (Cmd.mk path []) = none :=
  ⟨rfl, rfl⟩

/-- C8: encoding any `QueryResult` to the wire format and reading the
resulting JSON back with the conforming reader recovers the value
exactly — the same items, the same actions per item, the same field
values and the same ordering. -/
theorem c8_encode_decode_roundtrip (r : QueryResult) :
    decodeQueryResult (encodeQueryResult r) = some r := by
  obtain ⟨items⟩ := r
  cases items with
  | none => rfl
  | some l =>
    have h := decodeList_map decodeQueryItem encodeQueryItem
      decodeQueryItem_encode l
    show ((decodeList decodeQueryItem (l.map encodeQueryItem)).map some).map
        QueryResult.mk = some (QueryResult.mk (some l))
    rw [h]
    rfl

/-- C9: for every operation, recognized or not, dispatching leaves the
plugin's configuration unchanged — the receiver (hence the Metadata
value returned by the `Metadata()` method) after `RunOp` equals the one
before. -/
theorem c9_dispatch_preserves_metadata (p : DefaultPlugin) (op : AlbertOp)
    (queryEnv : String) :
    (p.RunOp op queryEnv).plugin.getMetadata = p.getMetadata ∧
    (p.RunOp op queryEnv).plugin = p := by
  unfold DefaultPlugin.RunOp
  split_ifs <;> try exact ⟨rfl, rfl⟩
  rcases hq : p.Query queryEnv with ⟨res, err⟩
  cases err <;> simp [hq]

/-- C10: `NewPlugin` always installs the fixed protocol-version string
as `Meta.IID`, an empty non-nil dependency slice (so the METADATA wire
encoding carries `dependencies` as the empty array, not null), standard
output as the sink, and exactly the supplied query callback. -/
theorem c10_newplugin_fields (name version author trigger : String)
    (qc : String → QueryResult × Option GoError) :
    (NewPlugin name version author trigger qc).Meta.IID =
      "org.albert.extension.external/v2.0" ∧
    (NewPlugin name version author trigger qc).Meta.Dependencies = some [] ∧
    encodeMetadata (NewPlugin name version author trigger qc).Meta =
      Json.obj [("iid", Json.str "org.albert.extension.external/v2.0"),
        ("name", Json.str name), ("version", Json.str version),
        ("author", Json.str author), ("dependencies", Json.arr []),
        ("trigger", Json.str trigger)] ∧
    (NewPlugin name version author trigger qc).Output = Writer.stdout ∧
    (NewPlugin name version author trigger qc).QueryCallback = some qc :=
  ⟨rfl, rfl, rfl, rfl, rfl⟩

end Goalbert
